import Mathlib

/-!
Verification of the query/ranking engine of the GithubIssueRecommender
repository: a shallow embedding of the in-memory storage layer
(`MemStorage` with its two query entry points `getIssues` and
`getRecommendedIssuesForUser`, plus `calculateRecommendationScore`)
together with proofs of the specified properties.

Modelling conventions:
- JavaScript strings are Lean `String`; `toLowerCase`/`trim`/`includes`
  are modelled on the underlying character list (`jsToLower`, `jsTrim`,
  `strIncludes`).
- Nullable columns of the schema are `Option` fields; JavaScript
  truthiness of numbers/strings (where `0`, `""`, `null` are falsy) is
  modelled by the `natOr`/`strOr`/`strTruthy` helpers.
- `Date` values are their millisecond timestamps (`Int`); the impure
  `Date.now()` is passed in as an explicit `now` argument.
- `Array.prototype.sort` is stable in JavaScript engines; it is modelled
  by the stable `List.insertionSort` with the comparator translated to a
  boolean "may precede" relation (`cmp a b <= 0`).
- Methods of `MemStorage` are state passing: they return their result
  together with the store, mirroring that the query methods never write
  to the underlying maps.
-/

namespace IssueRecommender

/-- JavaScript `o || d` for an optional number (`null`/`undefined` and `0` are falsy). -/
def natOr (o : Option Nat) (d : Nat) : Nat :=
  match o with
  | none => d
  | some v => if v = 0 then d else v

/-- JavaScript `o || d` for an optional string (`null` and `""` are falsy). -/
def strOr (o : Option String) (d : String) : String :=
  match o with
  | none => d
  | some s => if s = "" then d else s

/-- JavaScript truthiness of an optional string (`null` and `""` are falsy). -/
def strTruthy (o : Option String) : Bool :=
  match o with
  | none => false
  | some s => s ≠ ""

/-- JavaScript truthiness of a nullable boolean. -/
def boolTruthy (o : Option Bool) : Bool := o.getD false

/-- Millisecond value of `new Date(x).getTime()` for `x : Date | null`; `new Date(null)` is the epoch. -/
def dateMs (o : Option Int) : Int := o.getD 0

/-- Model of `String.prototype.toLowerCase` (ASCII case folding). -/
def jsToLower (s : String) : String := ⟨s.data.map Char.toLower⟩

/-- Model of `String.prototype.trim`: whitespace removed from both ends. -/
def jsTrim (s : String) : String :=
  ⟨((s.data.dropWhile Char.isWhitespace).reverse.dropWhile Char.isWhitespace).reverse⟩

/-- Boolean substring containment on character lists, bottom layer of `String.prototype.includes`. -/
def hasSubstr (pat : List Char) : List Char → Bool
  | [] => pat.isEmpty
  | c :: rest => pat.isPrefixOf (c :: rest) || hasSubstr pat rest

/-- Model of `s.includes(pat)` on strings. -/
def strIncludes (s pat : String) : Bool := hasSubstr pat.data s.data

/-- Issue record, one row of the `issues` table of `shared/schema.ts`.
Timestamps are millisecond values; nullable columns are `Option` fields.
`labels` is a plain list: `createIssue` normalizes it to an array before
storing (`Array.isArray(insertIssue.labels) ? insertIssue.labels : []`). -/
structure Issue where
  id : String
  githubId : Int
  number : Int
  title : String
  body : Option String
  state : String
  labels : List String
  language : Option String
  repositoryName : String
  repositoryOwner : String
  repositoryStars : Option Nat
  repositoryForks : Option Nat
  comments : Option Nat
  difficulty : Option String
  isRecommended : Option Bool
  createdAt : Option Int
  updatedAt : Option Int
deriving DecidableEq, Repr

/-- User record, one row of the `users` table of `shared/schema.ts`. -/
structure User where
  id : String
  githubId : Int
  username : String
  avatarUrl : Option String
  name : Option String
  bio : Option String
  publicRepos : Option Nat
  followers : Option Nat
  following : Option Nat
  topLanguages : Option (List String)
  createdAt : Option Int
deriving DecidableEq, Repr

/-- Repository record, one row of the `repositories` table of `shared/schema.ts`. -/
structure Repository where
  id : String
  githubId : Int
  name : String
  fullName : String
  owner : String
  description : Option String
  language : Option String
  stars : Option Nat
  forks : Option Nat
  openIssues : Option Nat
  isPrivate : Option Bool
  createdAt : Option Int
  updatedAt : Option Int
deriving DecidableEq, Repr

/-- Value of the `repositorySize` filter (`z.enum(["any", "small", "medium", "large"])`). -/
inductive RepoSize where
  | any
  | small
  | medium
  | large
deriving DecidableEq, Repr

/-- Value of the `sortBy` filter (`z.enum(["recent", "stars", "match", "comments"])`).
The literal `"match"` is a Lean keyword, hence the constructor name `byMatch`. -/
inductive SortBy where
  | recent
  | stars
  | byMatch
  | comments
deriving DecidableEq, Repr

/-- The `IssueFilters` object (`issueFiltersSchema` of `shared/schema.ts`): all fields optional. -/
structure IssueFilters where
  languages : Option (List String)
  difficulty : Option (List String)
  repositorySize : Option RepoSize
  search : Option String
  sortBy : Option SortBy
  page : Option Nat
  limit : Option Nat
deriving DecidableEq, Repr

/-- State of `MemStorage`: the values of the three in-memory maps in insertion order. -/
structure MemStorage where
  users : List User
  repositories : List Repository
  issues : List Issue
deriving DecidableEq, Repr

/-- Shape `{ issues, total }` returned by both query entry points. -/
structure QueryResult where
  issues : List Issue
  total : Nat
deriving DecidableEq, Repr

/-- Lookup `this.users.get(id)`; keys of the map are the stored `id` fields. -/
def getUser (σ : MemStorage) (id : String) : Option User :=
  σ.users.find? (fun u => u.id == id)

/-- Guard `filters.search && filters.search.trim()` of both entry points. -/
def searchActive (f : IssueFilters) : Bool :=
  match f.search with
  | some s => jsTrim s ≠ ""
  | none => false

/-- Search term `filters.search.toLowerCase().trim()`. -/
def searchTerm (f : IssueFilters) : String :=
  match f.search with
  | some s => jsTrim (jsToLower s)
  | none => ""

/-- Body of the search filter callback: the case-folded term is tested by
`includes` against title, body, repository name, repository owner,
language and each label, with absent `body`/`language` contributing
`false` (`issue.body?.toLowerCase().includes(searchTerm) || false`). -/
def matchesSearch (term : String) (issue : Issue) : Bool :=
  strIncludes (jsToLower issue.title) term ||
  (match issue.body with
   | some b => strIncludes (jsToLower b) term
   | none => false) ||
  strIncludes (jsToLower issue.repositoryName) term ||
  strIncludes (jsToLower issue.repositoryOwner) term ||
  (match issue.language with
   | some l => strIncludes (jsToLower l) term
   | none => false) ||
  issue.labels.any (fun label => strIncludes (jsToLower label) term)

/-- Search stage of `getIssues`: filter only when the guard is truthy. -/
def searchFilterStage (f : IssueFilters) (issues : List Issue) : List Issue :=
  if searchActive f then issues.filter (matchesSearch (searchTerm f)) else issues

/-- Predicate `issue.language && filters.languages!.includes(issue.language)`. -/
def languageOk (langs : List String) (issue : Issue) : Bool :=
  match issue.language with
  | some l => decide (l ≠ "") && langs.contains l
  | none => false

/-- Language stage: applied only when `filters.languages` is a non-empty array. -/
def languagesFilterStage (f : IssueFilters) (issues : List Issue) : List Issue :=
  match f.languages with
  | some langs => if langs ≠ [] then issues.filter (languageOk langs) else issues
  | none => issues

/-- Predicate `issue.difficulty && filters.difficulty!.includes(issue.difficulty)`. -/
def difficultyOk (diffs : List String) (issue : Issue) : Bool :=
  match issue.difficulty with
  | some d => decide (d ≠ "") && diffs.contains d
  | none => false

/-- Difficulty stage: applied only when `filters.difficulty` is a non-empty array. -/
def difficultyFilterStage (f : IssueFilters) (issues : List Issue) : List Issue :=
  match f.difficulty with
  | some diffs => if diffs ≠ [] then issues.filter (difficultyOk diffs) else issues
  | none => issues

/-- Body of the repository-size filter callback: the `switch` over
`filters.repositorySize` with `stars = issue.repositoryStars || 0`. -/
def sizeOk (size : RepoSize) (issue : Issue) : Bool :=
  let stars := natOr issue.repositoryStars 0
  match size with
  | RepoSize.small => decide (stars < 100)
  | RepoSize.medium => decide (stars ≥ 100) && decide (stars < 1000)
  | RepoSize.large => decide (stars ≥ 1000)
  | RepoSize.any => true

/-- Size stage: applied only when `filters.repositorySize` is present and not `"any"`. -/
def sizeFilterStage (f : IssueFilters) (issues : List Issue) : List Issue :=
  match f.repositorySize with
  | some size => if size ≠ RepoSize.any then issues.filter (sizeOk size) else issues
  | none => issues

/-- The "may precede" relation of the `getIssues` sort comparator: with
comparator `c(a, b) = key(b) - key(a)`, element `a` may precede `b`
exactly when `c(a, b) ≤ 0`, that is `key(b) ≤ key(a)` (descending). -/
def sortCmpLe (sortBy : SortBy) (a b : Issue) : Bool :=
  match sortBy with
  | SortBy.stars => decide (natOr b.repositoryStars 0 ≤ natOr a.repositoryStars 0)
  | SortBy.comments => decide (natOr b.comments 0 ≤ natOr a.comments 0)
  | SortBy.byMatch =>
      decide ((if boolTruthy b.isRecommended then (1 : Int) else 0) ≤
              (if boolTruthy a.isRecommended then (1 : Int) else 0))
  | SortBy.recent => decide (dateMs b.updatedAt ≤ dateMs a.updatedAt)

/-- Sort stage of `getIssues`: a stable sort by the requested mode. -/
def sortStage (sortBy : SortBy) (issues : List Issue) : List Issue :=
  issues.insertionSort (fun a b => sortCmpLe sortBy a b = true)

/-- Filter pipeline of `getIssues`, in source order: search, languages, difficulty, size. -/
def anonymousSurvivors (f : IssueFilters) (issues : List Issue) : List Issue :=
  sizeFilterStage f (difficultyFilterStage f (languagesFilterStage f (searchFilterStage f issues)))

/-- Entry point `getIssues(filters)` of `MemStorage`: filter, sort with
`filters.sortBy || "recent"`, then slice `[(page-1)*limit, +limit)` of the
sorted sequence with `page = filters.page || 1`, `limit = filters.limit || 10`.
The store is read, never written. -/
def getIssues (σ : MemStorage) (f : IssueFilters) : QueryResult × MemStorage :=
  let allIssues := sortStage (f.sortBy.getD SortBy.recent) (anonymousSurvivors f σ.issues)
  let total := allIssues.length
  let page := natOr f.page 1
  let limit := natOr f.limit 10
  let start := (page - 1) * limit
  ({ issues := (allIssues.drop start).take limit, total := total }, σ)

/-- Body of the affinity-narrowing callback:
`if (!issue.language) return true; return user.topLanguages!.includes(issue.language);`. -/
def affinityOk (topLangs : List String) (issue : Issue) : Bool :=
  match issue.language with
  | none => true
  | some l => if l = "" then true else topLangs.contains l

/-- Affinity narrowing: applied only when `user.topLanguages` is a non-empty array. -/
def affinityStage (user : User) (issues : List Issue) : List Issue :=
  match user.topLanguages with
  | some topLangs => if topLangs ≠ [] then issues.filter (affinityOk topLangs) else issues
  | none => issues

/-- First stage of `getRecommendedIssuesForUser`: the search filter when the
search guard is truthy, otherwise the affinity narrowing
("Only prioritize user languages when not searching"). -/
def personalizedFirstStage (user : User) (f : IssueFilters) (issues : List Issue) : List Issue :=
  if searchActive f then issues.filter (matchesSearch (searchTerm f)) else affinityStage user issues

/-- Filter pipeline of `getRecommendedIssuesForUser`, in source order:
search-or-affinity, then languages, difficulty, size. -/
def recommendedSurvivors (user : User) (f : IssueFilters) (issues : List Issue) : List Issue :=
  sizeFilterStage f (difficultyFilterStage f (languagesFilterStage f (personalizedFirstStage user f issues)))

/-- The three beginner-signal label phrases. -/
def beginnerLabels : List String := ["good first issue", "beginner friendly", "help wanted"]

/-- Annotation `{...issue, isRecommended: user.topLanguages?.includes(issue.language || '') ||
issue.labels?.some(label => [...].includes(label.toLowerCase())) || false}`:
a fresh copy of the issue with the flag recomputed. -/
def markRecommended (user : User) (issue : Issue) : Issue :=
  { issue with
    isRecommended := some (
      (match user.topLanguages with
       | some topLangs => topLangs.contains (strOr issue.language "")
       | none => false) ||
      issue.labels.any (fun label => beginnerLabels.contains (jsToLower label))) }

/-- Method `calculateRecommendationScore(issue, user)`: four independent
additive bonuses; `now` stands for `Date.now()`. -/
def calculateRecommendationScore (issue : Issue) (user : User) (now : Int) : Int :=
  let score : Int := 0
  let score := if (match issue.language, user.topLanguages with
    | some l, some topLangs => decide (l ≠ "") && topLangs.contains l
    | _, _ => false) then score + 10 else score
  let score := if issue.labels.any (fun label => beginnerLabels.contains (jsToLower label))
    then score + 15 else score
  let score := if (match issue.repositoryStars with
    | some v => decide (v ≠ 0) && decide (v > 100)
    | none => false) then score + 5 else score
  let score := if (match issue.updatedAt with
    | some t => decide (now - 7 * 24 * 60 * 60 * 1000 < t)
    | none => false) then score + 3 else score
  score

/-- Sort of the personalized entry point: always by recommendation score,
descending (comparator `scoreB - scoreA`), as a stable sort. -/
def scoreSortStage (user : User) (now : Int) (issues : List Issue) : List Issue :=
  issues.insertionSort
    (fun a b => calculateRecommendationScore b user now ≤ calculateRecommendationScore a user now)

/-- The personalized pipeline after user resolution: filter, annotate, sort by score. -/
def recommendedPipeline (user : User) (f : IssueFilters) (now : Int) (issues : List Issue) : List Issue :=
  scoreSortStage user now ((recommendedSurvivors user f issues).map (markRecommended user))

/-- Entry point `getRecommendedIssuesForUser(userId, filters)` of `MemStorage`:
resolve the user (empty result when absent), run the personalized pipeline,
then slice `[(page-1)*limit, +limit)` with the same defaults as `getIssues`.
The store is read, never written. -/
def getRecommendedIssuesForUser (σ : MemStorage) (userId : String) (f : IssueFilters) (now : Int) :
    QueryResult × MemStorage :=
  match getUser σ userId with
  | none => ({ issues := [], total := 0 }, σ)
  | some user =>
    let recommendedIssues := recommendedPipeline user f now σ.issues
    let total := recommendedIssues.length
    let page := natOr f.page 1
    let limit := natOr f.limit 10
    let start := (page - 1) * limit
    ({ issues := (recommendedIssues.drop start).take limit, total := total }, σ)

/-- Survivors of the personalized filtering for an arbitrary (possibly absent)
user: the empty list when the user does not resolve, mirroring the early
return of `getRecommendedIssuesForUser`. -/
def recommendedSurvivorsAll (σ : MemStorage) (userId : String) (f : IssueFilters) : List Issue :=
  match getUser σ userId with
  | none => []
  | some user => recommendedSurvivors user f σ.issues

/-! General lemmas about the helpers and the pipeline stages. -/

theorem natOr_pos {o : Option Nat} {d : Nat} (hd : 0 < d) : 0 < natOr o d := by
  cases o with
  | none => exact hd
  | some v =>
    simp only [natOr]
    split
    · exact hd
    · omega

theorem natOr_succ (k d : Nat) : natOr (some (k + 1)) d = k + 1 := by
  simp [natOr]

theorem hasSubstr_iff (pat : List Char) : ∀ l : List Char, hasSubstr pat l = true ↔ pat <:+: l := by
  intro l
  induction l with
  | nil => simp [hasSubstr, List.isEmpty_iff, List.infix_nil]
  | cons c rest ih =>
    simp only [hasSubstr, Bool.or_eq_true]
    rw [ih, List.isPrefixOf_iff_prefix, List.infix_cons_iff]

theorem strIncludes_iff (s pat : String) : strIncludes s pat = true ↔ pat.data <:+: s.data :=
  hasSubstr_iff pat.data s.data

theorem length_slice {α : Type} (l : List α) (s k : Nat) :
    ((l.drop s).take k).length = min k (l.length - s) := by
  simp

theorem slice_of_start_beyond {α : Type} (l : List α) (s k : Nat) (h : l.length ≤ s) :
    (l.drop s).take k = [] := by
  rw [List.drop_eq_nil_of_le h, List.take_nil]

theorem le_ceil_mul (n lim : Nat) (h : 0 < lim) : n ≤ ((n + lim - 1) / lim) * lim := by
  have hd := Nat.div_add_mod (n + lim - 1) lim
  have hr : (n + lim - 1) % lim < lim := Nat.mod_lt _ h
  have hc : ((n + lim - 1) / lim) * lim = lim * ((n + lim - 1) / lim) := Nat.mul_comm _ _
  omega

theorem flatten_take_pages {α : Type} (l : List α) (lim : Nat) :
    ∀ m : Nat, ((List.range m).map (fun k => (l.drop (k * lim)).take lim)).flatten = l.take (m * lim) := by
  intro m
  induction m with
  | zero => simp
  | succ m ih =>
    rw [List.range_succ, List.map_append, List.flatten_append, ih]
    simp only [List.map_cons, List.map_nil, List.flatten_cons, List.flatten_nil, List.append_nil]
    rw [Nat.succ_mul, List.take_add]

theorem flatten_pages {α : Type} (l : List α) (lim : Nat) (h : 0 < lim) :
    ((List.range ((l.length + lim - 1) / lim)).map (fun k => (l.drop (k * lim)).take lim)).flatten = l := by
  rw [flatten_take_pages]
  exact List.take_of_length_le (le_ceil_mul l.length lim h)

theorem length_sortStage (sortBy : SortBy) (l : List Issue) : (sortStage sortBy l).length = l.length :=
  List.length_insertionSort _ l

theorem length_scoreSortStage (user : User) (now : Int) (l : List Issue) :
    (scoreSortStage user now l).length = l.length :=
  List.length_insertionSort _ l

/-! Sample records used to instantiate the theorems at concrete inputs. -/

/-- Concrete issue builder used by the witnesses; only the fields the engine
reads vary between samples. -/
def mkIssue (id : String) (lang : Option String) (labels : List String) (stars : Option Nat)
    (upd : Option Int) : Issue :=
  { id := id, githubId := 0, number := 1, title := "Fix crash", body := some "Fix Typo In Docs",
    state := "open", labels := labels, language := lang, repositoryName := "widgets",
    repositoryOwner := "octo", repositoryStars := stars, repositoryForks := none, comments := some 2,
    difficulty := some "beginner", isRecommended := none, createdAt := none, updatedAt := upd }

/-- Sample user whose `topLanguages` is `["Python"]`. -/
def pyUser : User :=
  { id := "u1", githubId := 1, username := "py", avatarUrl := none, name := none, bio := none,
    publicRepos := none, followers := none, following := none,
    topLanguages := some ["Python"], createdAt := none }

/-- Sample user whose `topLanguages` is the empty array. -/
def noLangUser : User :=
  { id := "u2", githubId := 2, username := "nl", avatarUrl := none, name := none, bio := none,
    publicRepos := none, followers := none, following := none,
    topLanguages := some [], createdAt := none }

/-- Python issue, 50 stars, updated at time 100. -/
def issueA : Issue := mkIssue "A" (some "Python") [] (some 50) (some 100)

/-- Language-less issue labelled "Help Wanted", 500 stars, updated at time 200. -/
def issueB : Issue := mkIssue "B" none ["Help Wanted"] (some 500) (some 200)

/-- Java issue, 2000 stars, updated at time 300. -/
def issueC : Issue := mkIssue "C" (some "Java") [] (some 2000) (some 300)

/-- Sample store holding both users and the three sample issues. -/
def sampleStore : MemStorage :=
  { users := [pyUser, noLangUser], repositories := [], issues := [issueA, issueB, issueC] }

/-- Store with no records at all. -/
def emptyStore : MemStorage := { users := [], repositories := [], issues := [] }

/-- Filters object with every field absent. -/
def emptyFilters : IssueFilters :=
  { languages := none, difficulty := none, repositorySize := none, search := none,
    sortBy := none, page := none, limit := none }

/-- C3: for every call to either entry point, the returned `total` is the
number of issues surviving all filtering (and, in personalized mode, affinity
narrowing) before pagination, and the returned items list has length exactly
`min(limit, total - (page-1)*limit)` (truncated subtraction), hence at most
`limit`, with `page`/`limit` resolved through their `|| 1` / `|| 10` defaults. -/
theorem total_before_pagination_and_page_length :
    ∀ (σ : MemStorage) (f : IssueFilters) (uid : String) (now : Int),
    (getIssues σ f).1.total = (anonymousSurvivors f σ.issues).length ∧
    (getIssues σ f).1.issues.length
      = min (natOr f.limit 10) ((getIssues σ f).1.total - (natOr f.page 1 - 1) * natOr f.limit 10) ∧
    (getRecommendedIssuesForUser σ uid f now).1.total = (recommendedSurvivorsAll σ uid f).length ∧
    (getRecommendedIssuesForUser σ uid f now).1.issues.length
      = min (natOr f.limit 10)
          ((getRecommendedIssuesForUser σ uid f now).1.total - (natOr f.page 1 - 1) * natOr f.limit 10) := by
  intro σ f uid now
  refine ⟨?_, ?_, ?_, ?_⟩
  · simp [getIssues, length_sortStage]
  · simp [getIssues, length_slice, length_sortStage]
  · unfold getRecommendedIssuesForUser recommendedSurvivorsAll
    cases getUser σ uid with
    | none => rfl
    | some user =>
      simp [recommendedPipeline, length_scoreSortStage]
  · unfold getRecommendedIssuesForUser
    cases getUser σ uid with
    | none => simp
    | some user =>
      simp [length_slice, recommendedPipeline, length_scoreSortStage]

/-- C7: when the referenced user does not resolve, the personalized entry
point returns the empty result `{ issues: [], total: 0 }`; no code path
signals an error (the embedding is a total function into `QueryResult`). -/
theorem absent_user_yields_empty_result :
    ∀ (σ : MemStorage) (uid : String) (f : IssueFilters) (now : Int),
    getUser σ uid = none →
    (getRecommendedIssuesForUser σ uid f now).1 = { issues := [], total := 0 } := by
  intro σ uid f now h
  simp [getRecommendedIssuesForUser, h]

/-- Witness for C7: the empty store resolves no user, and the personalized
query on it returns the empty result. -/
theorem absent_user_yields_empty_result_witness :
    getUser emptyStore "ghost" = none ∧
    (getRecommendedIssuesForUser emptyStore "ghost" emptyFilters 0).1 = { issues := [], total := 0 } :=
  ⟨by decide, absent_user_yields_empty_result emptyStore "ghost" emptyFilters 0 (by decide)⟩

/-- C9: neither entry point mutates the store: each call returns the store it
was given, so the stored users, repositories and issues are all unchanged
(the `isRecommended` annotation is applied to fresh copies in the result). -/
theorem queries_do_not_mutate_store :
    ∀ (σ : MemStorage) (f : IssueFilters) (uid : String) (now : Int),
    (getIssues σ f).2 = σ ∧
    (getRecommendedIssuesForUser σ uid f now).2 = σ ∧
    (getRecommendedIssuesForUser σ uid f now).2.users = σ.users ∧
    (getRecommendedIssuesForUser σ uid f now).2.repositories = σ.repositories ∧
    (getRecommendedIssuesForUser σ uid f now).2.issues = σ.issues := by
  intro σ f uid now
  have h2 : (getRecommendedIssuesForUser σ uid f now).2 = σ := by
    unfold getRecommendedIssuesForUser
    split <;> rfl
  exact ⟨rfl, h2, by rw [h2], by rw [h2], by rw [h2]⟩

theorem natOr_zero_getD (o : Option Nat) : natOr o 0 = o.getD 0 := by
  cases o with
  | none => rfl
  | some v => by_cases hv : v = 0 <;> simp [natOr, hv]

/-- Issue with exactly 100 repository stars. -/
def issue100 : Issue := mkIssue "D" none [] (some 100) none

/-- Filters requesting the `medium` repository-size bucket only. -/
def mediumFilters : IssueFilters := { emptyFilters with repositorySize := some RepoSize.medium }

/-- C5: the repository-size predicate implements the half-open star buckets
with an absent star count treated as 0: `small` iff stars < 100, `medium` iff
100 ≤ stars < 1000, `large` iff 1000 ≤ stars, `any` always; hence 100 stars is
`medium` and never `small`, 1000 stars is `large` and never `medium`; and an
active (present, non-`any`) `repositorySize` filter retains exactly the
issues satisfying the predicate. -/
theorem size_buckets_correct :
    ∀ (i : Issue),
    sizeOk RepoSize.any i = true ∧
    (sizeOk RepoSize.small i = true ↔ i.repositoryStars.getD 0 < 100) ∧
    (sizeOk RepoSize.medium i = true ↔ 100 ≤ i.repositoryStars.getD 0 ∧ i.repositoryStars.getD 0 < 1000) ∧
    (sizeOk RepoSize.large i = true ↔ 1000 ≤ i.repositoryStars.getD 0) ∧
    (i.repositoryStars.getD 0 = 100 → sizeOk RepoSize.medium i = true ∧ sizeOk RepoSize.small i = false) ∧
    (i.repositoryStars.getD 0 = 1000 → sizeOk RepoSize.large i = true ∧ sizeOk RepoSize.medium i = false) ∧
    (∀ (f : IssueFilters) (size : RepoSize) (l : List Issue),
      f.repositorySize = some size → size ≠ RepoSize.any →
      sizeFilterStage f l = l.filter (sizeOk size)) := by
  intro i
  have hs : natOr i.repositoryStars 0 = i.repositoryStars.getD 0 := natOr_zero_getD _
  refine ⟨rfl, ?_, ?_, ?_, ?_, ?_, ?_⟩
  · simp [sizeOk, hs]
  · simp [sizeOk, hs]
  · simp [sizeOk, hs]
  · intro h100
    constructor <;> simp [sizeOk, hs, h100]
  · intro h1000
    constructor <;> simp [sizeOk, hs, h1000]
  · intro f size l hf hne
    simp [sizeFilterStage, hf, hne]

/-- Witness for C5 at an issue with exactly 100 stars and an active `medium` filter. -/
theorem size_buckets_correct_witness :
    (sizeOk RepoSize.medium issue100 = true ∧ sizeOk RepoSize.small issue100 = false) ∧
    sizeFilterStage mediumFilters [issue100] = [issue100].filter (sizeOk RepoSize.medium) :=
  ⟨(size_buckets_correct issue100).2.2.2.2.1 (by decide),
   (size_buckets_correct issue100).2.2.2.2.2.2 mediumFilters RepoSize.medium [issue100] rfl (by decide)⟩

/-- Recommendation score as the specification words it: the sum of four
independent bonuses (+10 language affinity, +15 beginner-signal label,
+5 repository popularity, +3 recency within 7×24 hours of `now`). -/
def specScore (issue : Issue) (user : User) (now : Int) : Int :=
  (if ∃ l ∈ user.topLanguages.getD [], issue.language = some l then 10 else 0) +
  (if ∃ label ∈ issue.labels, jsToLower label ∈ beginnerLabels then 15 else 0) +
  (if 100 < issue.repositoryStars.getD 0 then 5 else 0) +
  (if ∃ t ∈ issue.updatedAt, now - 7 * 24 * 60 * 60 * 1000 < t then 3 else 0)

/-- C6: on every issue whose stored language is not the empty string (as
`createIssue` guarantees, coercing `""` to null), the sequentially computed
`calculateRecommendationScore` equals the additive specification sum, and the
score is non-negative. -/
theorem recommendation_score_correct :
    ∀ (issue : Issue) (user : User) (now : Int),
    issue.language ≠ some "" →
    calculateRecommendationScore issue user now = specScore issue user now ∧
    0 ≤ calculateRecommendationScore issue user now := by
  intro issue user now hlang
  have h1 : (match issue.language, user.topLanguages with
      | some l, some topLangs => decide (l ≠ "") && topLangs.contains l
      | _, _ => false) = true ↔ (∃ l ∈ user.topLanguages.getD [], issue.language = some l) := by
    cases hl : issue.language with
    | none => cases user.topLanguages <;> simp
    | some l =>
      have hne : l ≠ "" := by
        intro h
        rw [h] at hl
        exact hlang hl
      cases user.topLanguages <;> simp [hne]
  have h2 : (issue.labels.any (fun label => beginnerLabels.contains (jsToLower label))) = true ↔
      (∃ label ∈ issue.labels, jsToLower label ∈ beginnerLabels) := by
    simp
  have h3 : (match issue.repositoryStars with
      | some v => decide (v ≠ 0) && decide (v > 100)
      | none => false) = true ↔ 100 < issue.repositoryStars.getD 0 := by
    cases issue.repositoryStars with
    | none => simp
    | some v =>
      simp only [Option.getD_some, Bool.and_eq_true, decide_eq_true_eq]
      omega
  have h4 : (match issue.updatedAt with
      | some t => decide (now - 7 * 24 * 60 * 60 * 1000 < t)
      | none => false) = true ↔ (∃ t ∈ issue.updatedAt, now - 7 * 24 * 60 * 60 * 1000 < t) := by
    cases issue.updatedAt <;> simp
  constructor
  · simp only [calculateRecommendationScore, specScore, h1, h2, h3, h4]
    split_ifs <;> norm_num
  · simp only [calculateRecommendationScore]
    split_ifs <;> norm_num

/-- Witness for C6 at the labelled, language-less sample issue. -/
theorem recommendation_score_correct_witness :
    issueB.language ≠ some "" ∧
    calculateRecommendationScore issueB pyUser 1000 = specScore issueB pyUser 1000 ∧
    0 ≤ calculateRecommendationScore issueB pyUser 1000 :=
  ⟨by decide, (recommendation_score_correct issueB pyUser 1000 (by decide)).1,
   (recommendation_score_correct issueB pyUser 1000 (by decide)).2⟩

theorem pairwise_scoreSortStage (user : User) (now : Int) (l : List Issue) :
    (scoreSortStage user now l).Pairwise
      (fun a b => calculateRecommendationScore b user now ≤ calculateRecommendationScore a user now) := by
  haveI : IsTotal Issue
      (fun a b => calculateRecommendationScore b user now ≤ calculateRecommendationScore a user now) :=
    ⟨fun a b => le_total _ _⟩
  haveI : IsTrans Issue
      (fun a b => calculateRecommendationScore b user now ≤ calculateRecommendationScore a user now) :=
    ⟨fun a b c hab hbc => le_trans hbc hab⟩
  exact List.sorted_insertionSort _ l

/-- Filters requesting `sortBy = "recent"`. -/
def recentFilters : IssueFilters := { emptyFilters with sortBy := some SortBy.recent }

/-- Counterexample to C1: with `sortBy = "recent"` requested, the personalized
entry point does not return the items in `updatedAt`-descending order (it
always sorts by recommendation score, ignoring `sortBy`). -/
theorem recommended_ignores_requested_sort_counterexample :
    recentFilters.sortBy = some SortBy.recent ∧
    ¬ ((getRecommendedIssuesForUser sampleStore "u2" recentFilters 1000).1.issues.Pairwise
        (fun a b => dateMs b.updatedAt ≤ dateMs a.updatedAt)) := by
  constructor
  · rfl
  · decide

/-- C1 amended: for every personalized query over a resolved user, the
returned items are ordered by the additive recommendation score descending,
for every requested `sortBy` value (the `sortBy` key is ignored by the
personalized entry point). -/
theorem recommended_always_sorted_by_score :
    ∀ (σ : MemStorage) (uid : String) (f : IssueFilters) (now : Int) (user : User),
    getUser σ uid = some user →
    ((getRecommendedIssuesForUser σ uid f now).1.issues).Pairwise
      (fun a b => calculateRecommendationScore b user now ≤ calculateRecommendationScore a user now) := by
  intro σ uid f now user h
  have hp := pairwise_scoreSortStage user now
    ((recommendedSurvivors user f σ.issues).map (markRecommended user))
  simp only [getRecommendedIssuesForUser, h]
  exact List.Pairwise.sublist ((List.take_sublist _ _).trans (List.drop_sublist _ _)) hp

/-- Witness for the amended C1 on the sample store with `sortBy = "recent"`. -/
theorem recommended_always_sorted_by_score_witness :
    getUser sampleStore "u1" = some pyUser ∧
    ((getRecommendedIssuesForUser sampleStore "u1" recentFilters 1000).1.issues).Pairwise
      (fun a b => calculateRecommendationScore b pyUser 1000 ≤ calculateRecommendationScore a pyUser 1000) :=
  ⟨by decide, recommended_always_sorted_by_score sampleStore "u1" recentFilters 1000 pyUser (by decide)⟩

/-- C10: when the resolved user's `topLanguages` is absent or the empty array,
the personalized entry point applies no affinity narrowing: its first stage
coincides with the anonymous search stage, its surviving set is the anonymous
surviving set, and the returned `total` agrees with the anonymous one. -/
theorem empty_top_languages_no_narrowing :
    ∀ (σ : MemStorage) (uid : String) (f : IssueFilters) (now : Int) (user : User),
    getUser σ uid = some user →
    (user.topLanguages = none ∨ user.topLanguages = some []) →
    personalizedFirstStage user f σ.issues = searchFilterStage f σ.issues ∧
    recommendedSurvivors user f σ.issues = anonymousSurvivors f σ.issues ∧
    (getRecommendedIssuesForUser σ uid f now).1.total = (getIssues σ f).1.total := by
  intro σ uid f now user hu htl
  have haff : affinityStage user σ.issues = σ.issues := by
    rcases htl with h | h <;> simp [affinityStage, h]
  have h1 : personalizedFirstStage user f σ.issues = searchFilterStage f σ.issues := by
    cases hs : searchActive f <;> simp [personalizedFirstStage, searchFilterStage, hs, haff]
  have h2 : recommendedSurvivors user f σ.issues = anonymousSurvivors f σ.issues := by
    unfold recommendedSurvivors anonymousSurvivors
    rw [h1]
  refine ⟨h1, h2, ?_⟩
  simp only [getRecommendedIssuesForUser, hu, getIssues]
  simp [recommendedPipeline, length_scoreSortStage, length_sortStage, h2]

/-- Witness for C10: the user with empty `topLanguages` sees the anonymous
surviving set (in particular the Java issue is not excluded). -/
theorem empty_top_languages_no_narrowing_witness :
    getUser sampleStore "u2" = some noLangUser ∧
    recommendedSurvivors noLangUser emptyFilters sampleStore.issues
      = anonymousSurvivors emptyFilters sampleStore.issues ∧
    (getRecommendedIssuesForUser sampleStore "u2" emptyFilters 1000).1.total
      = (getIssues sampleStore emptyFilters).1.total :=
  ⟨by decide,
   (empty_top_languages_no_narrowing sampleStore "u2" emptyFilters 1000 noLangUser
      (by decide) (Or.inr rfl)).2.1,
   (empty_top_languages_no_narrowing sampleStore "u2" emptyFilters 1000 noLangUser
      (by decide) (Or.inr rfl)).2.2⟩

/-- C2: in personalized mode with an empty search and a non-empty
`topLanguages`, the affinity narrowing keeps exactly the issues with no
language set or with a language among the user's `topLanguages` (stated over
stores whose issues never carry the empty-string language, the normal form
`createIssue` guarantees by coercing `""` to null); the narrowing runs before
the explicit languages/difficulty/size filters, and both the returned `total`
and the returned items reflect it. -/
theorem affinity_narrowing_correct :
    ∀ (σ : MemStorage) (uid : String) (f : IssueFilters) (now : Int) (user : User)
      (topLangs : List String),
    getUser σ uid = some user →
    user.topLanguages = some topLangs →
    topLangs ≠ [] →
    searchActive f = false →
    (∀ i ∈ σ.issues, i.language ≠ some "") →
    personalizedFirstStage user f σ.issues
      = σ.issues.filter (fun i => decide (i.language = none ∨ ∃ l ∈ topLangs, i.language = some l)) ∧
    (getRecommendedIssuesForUser σ uid f now).1.total
      = (sizeFilterStage f (difficultyFilterStage f (languagesFilterStage f
          (σ.issues.filter
            (fun i => decide (i.language = none ∨ ∃ l ∈ topLangs, i.language = some l)))))).length ∧
    (getRecommendedIssuesForUser σ uid f now).1.issues
      = ((scoreSortStage user now ((sizeFilterStage f (difficultyFilterStage f (languagesFilterStage f
          (σ.issues.filter
            (fun i => decide (i.language = none ∨ ∃ l ∈ topLangs, i.language = some l)))))).map
              (markRecommended user))).drop
          ((natOr f.page 1 - 1) * natOr f.limit 10)).take (natOr f.limit 10) := by
  intro σ uid f now user topLangs hu htl hne hs hinv
  have hfilter : σ.issues.filter (affinityOk topLangs)
      = σ.issues.filter (fun i => decide (i.language = none ∨ ∃ l ∈ topLangs, i.language = some l)) := by
    apply List.filter_congr
    intro i hi
    have hl := hinv i hi
    cases hil : i.language with
    | none => simp [affinityOk, hil]
    | some l =>
      have hlne : l ≠ "" := by
        intro h
        rw [h] at hil
        exact hl hil
      simp [affinityOk, hil, hlne]
  have h1 : personalizedFirstStage user f σ.issues
      = σ.issues.filter (fun i => decide (i.language = none ∨ ∃ l ∈ topLangs, i.language = some l)) := by
    rw [personalizedFirstStage, hs]
    simp only [Bool.false_eq_true, if_false]
    simp only [affinityStage, htl]
    rw [if_pos hne]
    exact hfilter
  have h2 : recommendedSurvivors user f σ.issues
      = sizeFilterStage f (difficultyFilterStage f (languagesFilterStage f
          (σ.issues.filter
            (fun i => decide (i.language = none ∨ ∃ l ∈ topLangs, i.language = some l))))) := by
    unfold recommendedSurvivors
    rw [h1]
  refine ⟨h1, ?_, ?_⟩
  · simp only [getRecommendedIssuesForUser, hu]
    simp [recommendedPipeline, length_scoreSortStage, h2]
  · simp only [getRecommendedIssuesForUser, hu]
    simp [recommendedPipeline, h2]

/-- Witness for C2 on the sample store: the Java issue is narrowed away for
the Python user while the language-less issue survives, and the total
reflects it. -/
theorem affinity_narrowing_correct_witness :
    personalizedFirstStage pyUser emptyFilters sampleStore.issues
      = sampleStore.issues.filter
          (fun i => decide (i.language = none ∨ ∃ l ∈ ["Python"], i.language = some l)) ∧
    (getRecommendedIssuesForUser sampleStore "u1" emptyFilters 1000).1.total
      = (sizeFilterStage emptyFilters (difficultyFilterStage emptyFilters
          (languagesFilterStage emptyFilters
            (sampleStore.issues.filter
              (fun i => decide (i.language = none ∨ ∃ l ∈ ["Python"], i.language = some l)))))).length :=
  ⟨(affinity_narrowing_correct sampleStore "u1" emptyFilters 1000 pyUser ["Python"]
      (by decide) rfl (by decide) rfl (by decide)).1,
   (affinity_narrowing_correct sampleStore "u1" emptyFilters 1000 pyUser ["Python"]
      (by decide) rfl (by decide) rfl (by decide)).2.1⟩

theorem mem_of_mem_sizeFilterStage {f : IssueFilters} {l : List Issue} {i : Issue}
    (h : i ∈ sizeFilterStage f l) : i ∈ l := by
  unfold sizeFilterStage at h
  split at h
  · split at h
    · exact (List.mem_filter.mp h).1
    · exact h
  · exact h

theorem mem_of_mem_difficultyFilterStage {f : IssueFilters} {l : List Issue} {i : Issue}
    (h : i ∈ difficultyFilterStage f l) : i ∈ l := by
  unfold difficultyFilterStage at h
  split at h
  · split at h
    · exact (List.mem_filter.mp h).1
    · exact h
  · exact h

theorem mem_of_mem_languagesFilterStage {f : IssueFilters} {l : List Issue} {i : Issue}
    (h : i ∈ languagesFilterStage f l) : i ∈ l := by
  unfold languagesFilterStage at h
  split at h
  · split at h
    · exact (List.mem_filter.mp h).1
    · exact h
  · exact h

theorem matchesSearch_markRecommended (user : User) (term : String) (issue : Issue) :
    matchesSearch term (markRecommended user issue) = matchesSearch term issue := rfl

/-- Search relevance as the specification words it: the case-folded term is a
substring (infix of the character list) of the case-folded title, body (when
present), repository name, repository owner, language (when present), or of
some case-folded label. -/
def specSearchMatch (term : String) (issue : Issue) : Prop :=
  term.data <:+: (jsToLower issue.title).data ∨
  (∃ b, issue.body = some b ∧ term.data <:+: (jsToLower b).data) ∨
  term.data <:+: (jsToLower issue.repositoryName).data ∨
  term.data <:+: (jsToLower issue.repositoryOwner).data ∨
  (∃ l, issue.language = some l ∧ term.data <:+: (jsToLower l).data) ∨
  (∃ label ∈ issue.labels, term.data <:+: (jsToLower label).data)

/-- C4: for a search field that is non-empty after trimming, the search
predicate is exactly the six-field case-insensitive substring disjunction
(with absent optional fields non-matching), and it is applied in both entry
points: each one's search stage is the literal filter by the predicate, and
every returned item of either entry point satisfies the disjunction. -/
theorem search_predicate_correct :
    ∀ (f : IssueFilters) (s : String),
    f.search = some s →
    jsTrim s ≠ "" →
    (∀ i : Issue, matchesSearch (searchTerm f) i = true ↔ specSearchMatch (searchTerm f) i) ∧
    (∀ σ : MemStorage,
      searchFilterStage f σ.issues = σ.issues.filter (matchesSearch (searchTerm f)) ∧
      (∀ u : User, personalizedFirstStage u f σ.issues = σ.issues.filter (matchesSearch (searchTerm f))) ∧
      (∀ i ∈ (getIssues σ f).1.issues, specSearchMatch (searchTerm f) i) ∧
      (∀ (uid : String) (now : Int),
        ∀ i ∈ (getRecommendedIssuesForUser σ uid f now).1.issues, specSearchMatch (searchTerm f) i)) := by
  intro f s hf hs
  have hact : searchActive f = true := by
    simp [searchActive, hf, hs]
  have hchar : ∀ i : Issue, matchesSearch (searchTerm f) i = true ↔ specSearchMatch (searchTerm f) i := by
    intro i
    unfold matchesSearch specSearchMatch
    cases i.body <;> cases i.language <;>
      simp [strIncludes_iff, List.any_eq_true] <;> tauto
  refine ⟨hchar, ?_⟩
  intro σ
  have hstage : searchFilterStage f σ.issues = σ.issues.filter (matchesSearch (searchTerm f)) := by
    simp [searchFilterStage, hact]
  have hpstage : ∀ u : User,
      personalizedFirstStage u f σ.issues = σ.issues.filter (matchesSearch (searchTerm f)) := by
    intro u
    simp [personalizedFirstStage, hact]
  refine ⟨hstage, hpstage, ?_, ?_⟩
  · intro i hi
    simp only [getIssues] at hi
    have h1 : i ∈ sortStage (f.sortBy.getD SortBy.recent) (anonymousSurvivors f σ.issues) :=
      List.Sublist.mem hi ((List.take_sublist _ _).trans (List.drop_sublist _ _))
    have h2 : i ∈ anonymousSurvivors f σ.issues := by
      unfold sortStage at h1
      exact (List.perm_insertionSort _ _).mem_iff.mp h1
    unfold anonymousSurvivors at h2
    have h3 :=
      mem_of_mem_languagesFilterStage (mem_of_mem_difficultyFilterStage (mem_of_mem_sizeFilterStage h2))
    rw [hstage] at h3
    exact (hchar i).mp (List.mem_filter.mp h3).2
  · intro uid now i hi
    cases hu : getUser σ uid with
    | none => simp [getRecommendedIssuesForUser, hu] at hi
    | some u =>
      simp only [getRecommendedIssuesForUser, hu] at hi
      have h1 : i ∈ scoreSortStage u now ((recommendedSurvivors u f σ.issues).map (markRecommended u)) := by
        have := List.Sublist.mem hi ((List.take_sublist _ _).trans (List.drop_sublist _ _))
        simpa [recommendedPipeline] using this
      have h2 : i ∈ (recommendedSurvivors u f σ.issues).map (markRecommended u) := by
        unfold scoreSortStage at h1
        exact (List.perm_insertionSort _ _).mem_iff.mp h1
      obtain ⟨j, hj, rfl⟩ := List.mem_map.mp h2
      unfold recommendedSurvivors at hj
      have h3 :=
        mem_of_mem_languagesFilterStage (mem_of_mem_difficultyFilterStage (mem_of_mem_sizeFilterStage hj))
      rw [hpstage u] at h3
      have h4 : matchesSearch (searchTerm f) j = true := (List.mem_filter.mp h3).2
      have h5 : matchesSearch (searchTerm f) (markRecommended u j) = true := by
        rw [matchesSearch_markRecommended]
        exact h4
      exact (hchar _).mp h5

/-- Filters searching for "Typo". -/
def typoFilters : IssueFilters := { emptyFilters with search := some "Typo" }

/-- Witness for C4: the sample issue whose body contains "Fix Typo In Docs"
satisfies the characterization, and the anonymous search stage on the sample
store is the literal filter. -/
theorem search_predicate_correct_witness :
    (matchesSearch (searchTerm typoFilters) issueB = true ↔
      specSearchMatch (searchTerm typoFilters) issueB) ∧
    searchFilterStage typoFilters sampleStore.issues
      = sampleStore.issues.filter (matchesSearch (searchTerm typoFilters)) :=
  ⟨(search_predicate_correct typoFilters "Typo" rfl (by decide)).1 issueB,
   ((search_predicate_correct typoFilters "Typo" rfl (by decide)).2 sampleStore).1⟩

/-- The full filtered-and-sorted sequence of the anonymous entry point, of
which each returned page is a slice. -/
def anonymousFullSeq (σ : MemStorage) (f : IssueFilters) : List Issue :=
  sortStage (f.sortBy.getD SortBy.recent) (anonymousSurvivors f σ.issues)

/-- The full personalized sequence, empty when the user does not resolve. -/
def recommendedFullSeq (σ : MemStorage) (uid : String) (f : IssueFilters) (now : Int) : List Issue :=
  match getUser σ uid with
  | none => []
  | some user => recommendedPipeline user f now σ.issues

theorem natOr_page_sub_one (p : Nat) : natOr (some p) 1 - 1 = p - 1 := by
  cases p with
  | zero => rfl
  | succ k => simp [natOr]

theorem getIssues_page_slice (σ : MemStorage) (f : IssueFilters) (p : Nat) :
    (getIssues σ { f with page := some p }).1.issues
      = ((anonymousFullSeq σ f).drop ((p - 1) * natOr f.limit 10)).take (natOr f.limit 10) := by
  have h : (getIssues σ { f with page := some p }).1.issues
      = ((anonymousFullSeq σ f).drop ((natOr (some p) 1 - 1) * natOr f.limit 10)).take
          (natOr f.limit 10) := rfl
  rw [h, natOr_page_sub_one]

theorem getRecommended_page_slice (σ : MemStorage) (uid : String) (f : IssueFilters) (now : Int)
    (p : Nat) :
    (getRecommendedIssuesForUser σ uid { f with page := some p } now).1.issues
      = ((recommendedFullSeq σ uid f now).drop ((p - 1) * natOr f.limit 10)).take
          (natOr f.limit 10) := by
  cases hu : getUser σ uid with
  | none => simp [getRecommendedIssuesForUser, recommendedFullSeq, hu]
  | some u =>
    have h : (getRecommendedIssuesForUser σ uid { f with page := some p } now).1.issues
        = ((recommendedFullSeq σ uid f now).drop ((natOr (some p) 1 - 1) * natOr f.limit 10)).take
            (natOr f.limit 10) := by
      simp only [getRecommendedIssuesForUser, recommendedFullSeq, hu]
      rfl
    rw [h, natOr_page_sub_one]

/-- C8: for a fixed snapshot and fixed filters, concatenating the item lists
of pages 1 through that number of pages that covers the whole sequence,
namely `ceil(total/limit) = (total + limit - 1) / limit`, reproduces the full
filtered-and-sorted sequence of either entry point exactly (so each surviving
issue appears exactly once, no duplicates, no omissions), and any page whose
start index `(page-1)*limit` is at or beyond the sequence length yields an
empty items list, not an error. -/
theorem pagination_coverage :
    ∀ (σ : MemStorage) (f : IssueFilters) (uid : String) (now : Int),
    (((List.range
          (((anonymousFullSeq σ f).length + natOr f.limit 10 - 1) / natOr f.limit 10)).map
        (fun k => (getIssues σ { f with page := some (k + 1) }).1.issues)).flatten
      = anonymousFullSeq σ f) ∧
    (∀ p : Nat, (anonymousFullSeq σ f).length ≤ (p - 1) * natOr f.limit 10 →
      (getIssues σ { f with page := some p }).1.issues = []) ∧
    (((List.range
          (((recommendedFullSeq σ uid f now).length + natOr f.limit 10 - 1) / natOr f.limit 10)).map
        (fun k => (getRecommendedIssuesForUser σ uid { f with page := some (k + 1) } now).1.issues)).flatten
      = recommendedFullSeq σ uid f now) ∧
    (∀ p : Nat, (recommendedFullSeq σ uid f now).length ≤ (p - 1) * natOr f.limit 10 →
      (getRecommendedIssuesForUser σ uid { f with page := some p } now).1.issues = []) := by
  intro σ f uid now
  have hlim : 0 < natOr f.limit 10 := natOr_pos (by norm_num)
  have hmapAnon : ∀ k : Nat, (getIssues σ { f with page := some (k + 1) }).1.issues
      = ((anonymousFullSeq σ f).drop (k * natOr f.limit 10)).take (natOr f.limit 10) := by
    intro k
    rw [getIssues_page_slice]
    simp
  have hmapRec : ∀ k : Nat,
      (getRecommendedIssuesForUser σ uid { f with page := some (k + 1) } now).1.issues
      = ((recommendedFullSeq σ uid f now).drop (k * natOr f.limit 10)).take (natOr f.limit 10) := by
    intro k
    rw [getRecommended_page_slice]
    simp
  refine ⟨?_, ?_, ?_, ?_⟩
  · rw [List.map_congr_left (fun a _ => hmapAnon a)]
    exact flatten_pages _ _ hlim
  · intro p hp
    rw [getIssues_page_slice]
    exact slice_of_start_beyond _ _ _ hp
  · rw [List.map_congr_left (fun a _ => hmapRec a)]
    exact flatten_pages _ _ hlim
  · intro p hp
    rw [getRecommended_page_slice]
    exact slice_of_start_beyond _ _ _ hp

/-- Witness for C8 on the sample store: all pages concatenate to the full
anonymous sequence, and page 9 (start index far beyond the three stored
issues) is empty. -/
theorem pagination_coverage_witness :
    (((List.range
          (((anonymousFullSeq sampleStore emptyFilters).length + natOr emptyFilters.limit 10 - 1)
            / natOr emptyFilters.limit 10)).map
        (fun k => (getIssues sampleStore { emptyFilters with page := some (k + 1) }).1.issues)).flatten
      = anonymousFullSeq sampleStore emptyFilters) ∧
    (getIssues sampleStore { emptyFilters with page := some 9 }).1.issues = [] :=
  ⟨(pagination_coverage sampleStore emptyFilters "u1" 1000).1,
   (pagination_coverage sampleStore emptyFilters "u1" 1000).2.1 9 (by decide)⟩

end IssueRecommender
